import Mathlib

/-!
Shallow embedding of the mailbox distance-sample processing pipeline
(src/main/processor/processor.cpp, src/main/telemetry/telemetry.cpp,
src/main/config/config.hpp).

Modelling decisions:
* C++ `float` quantities (distances, rates, thresholds) are modelled as `ℚ`;
  the verified claims are about comparisons, subtraction and averaging, which
  are exact.
* `uint32_t` / `uint64_t` arithmetic is modelled on `Nat` with explicit
  reductions modulo `2^32` / `2^64` where the C++ code can wrap
  (casts, increments, additions and unsigned subtraction of timestamps).
* The retained `StateContext` struct is reconstructed from its uses in
  `processor.cpp` (its declaring header is not part of the sources, but every
  field is read and written there).
-/

namespace Config

/-- BASELINE_CM from config.hpp. -/
def BASELINE_CM : ℚ := 40

/-- TRIGGER_DELTA_CM from config.hpp. -/
def TRIGGER_DELTA_CM : ℚ := 3

/-- HOLD_MS from config.hpp. -/
def HOLD_MS : Nat := 250

/-- REFRACTORY_MS from config.hpp. -/
def REFRACTORY_MS : Nat := 8000

/-- FILTER_WINDOW from config.hpp. -/
def FILTER_WINDOW : Nat := 5

end Config

namespace Processor

/-- Wrap-around of `uint32_t` casts and arithmetic. -/
def u32 (a : Nat) : Nat := a % 2 ^ 32

/-- Wrap-around of `uint64_t` additions. -/
def u64add (a b : Nat) : Nat := (a + b) % 2 ^ 64

/-- Unsigned 64-bit subtraction `a - b` (two-sided wrap) for `a b < 2^64`. -/
def u64sub (a b : Nat) : Nat := (a + 2 ^ 64 - b) % 2 ^ 64

/-- The four mailbox occupancy states (enum class MailboxState). -/
inductive MailboxState where
  | EMPTY
  | HAS_MAIL
  | FULL
  | EMPTIED
deriving DecidableEq, Repr

/-- The persisted processing context, field for field the C++ StateContext as
used by processor.cpp: filter window with cursor and count, quality counters,
published success rate and its last-update timestamp, the mailbox state, the
occlusion flag and timestamps of the state machine. -/
structure StateContext where
  window : List ℚ
  w_idx : Nat
  w_count : Nat
  filtered_cm : ℚ
  ok_count : Nat
  total_count : Nat
  ms_since_decay : Nat
  success_rate : ℚ
  last_update_us : Nat
  current_state : MailboxState
  occluding : Bool
  occlusion_start_us : Nat
  state_change_us : Nat
  refractory_until_us : Nat
deriving DecidableEq, Repr

/-- The per-call processing result (struct DistanceData). -/
structure DistanceData where
  raw_cm : ℚ
  filtered_cm : ℚ
  success_rate : ℚ
  mail_detected : Bool
  mail_collected : Bool
  delta_cm : ℚ
  duration_ms : Nat
  state : MailboxState
deriving DecidableEq, Repr

/-- Median of the valid (strictly positive) values among the populated window
slots, as computed by Processor::calculateMedian: collect the positive values
of slots `0 .. w_count-1`, sort ascending, take the middle element for an odd
count and the mean of the two central elements for an even count; the sentinel
-1 when no valid value is present. -/
def calculateMedian (ctx : StateContext) : ℚ :=
  let tmp := ((ctx.window.take ctx.w_count).filter (fun v => 0 < v)).insertionSort (· ≤ ·)
  let n := tmp.length
  if n = 0 then -1
  else if n % 2 = 1 then tmp.getD (n / 2) 0
  else (tmp.getD (n / 2 - 1) 0 + tmp.getD (n / 2) 0) / 2

/-- Processor::addToFilter: write the sample at the cursor, advance the cursor
modulo FILTER_WINDOW, grow the count until it saturates, recompute the median. -/
def addToFilter (ctx : StateContext) (distance_cm : ℚ) : StateContext :=
  let ctx := { ctx with
    window := ctx.window.set ctx.w_idx distance_cm
    w_idx := (ctx.w_idx + 1) % Config.FILTER_WINDOW
    w_count := if ctx.w_count < Config.FILTER_WINDOW then ctx.w_count + 1 else ctx.w_count }
  { ctx with filtered_cm := calculateMedian ctx }

/-- Processor::updateSuccessRate: republish ok/total (0 when total is 0), add
the elapsed milliseconds to the decay accumulator, and once it reaches 60000 ms
halve both counters by integer division and reset the accumulator. -/
def updateSuccessRate (ctx : StateContext) (elapsed_ms : Nat) : StateContext :=
  let ctx := { ctx with
    success_rate := if 0 < ctx.total_count
      then (ctx.ok_count : ℚ) / (ctx.total_count : ℚ) else 0
    ms_since_decay := u32 (ctx.ms_since_decay + elapsed_ms) }
  if 60000 ≤ ctx.ms_since_decay then
    { ctx with
      ok_count := ctx.ok_count / 2
      total_count := ctx.total_count / 2
      ms_since_decay := 0 }
  else ctx

/-- The Processor object: the persisted context plus the four threshold
constants that both constructors recompute from the configuration. -/
structure Processor where
  ctx : StateContext
  baseline_cm : ℚ
  trigger_thresh_cm : ℚ
  full_thresh_cm : ℚ
  empty_thresh_cm : ℚ
deriving DecidableEq, Repr

/-- The context built by the default constructor: zero-initialized, state
EMPTY, filtered value -1. -/
def initialContext : StateContext :=
  { window := List.replicate Config.FILTER_WINDOW 0
    w_idx := 0
    w_count := 0
    filtered_cm := -1
    ok_count := 0
    total_count := 0
    ms_since_decay := 0
    success_rate := 0
    last_update_us := 0
    current_state := .EMPTY
    occluding := false
    occlusion_start_us := 0
    state_change_us := 0
    refractory_until_us := 0 }

/-- The restoring constructor Processor::Processor(const StateContext&):
adopt the saved context and recompute the thresholds from the configuration. -/
def restore (ctx : StateContext) : Processor :=
  { ctx := ctx
    baseline_cm := Config.BASELINE_CM
    trigger_thresh_cm := Config.BASELINE_CM - Config.TRIGGER_DELTA_CM
    full_thresh_cm := Config.BASELINE_CM - 2 * Config.TRIGGER_DELTA_CM
    empty_thresh_cm := Config.BASELINE_CM - Config.TRIGGER_DELTA_CM * (1 / 2) }

/-- The default constructor Processor::Processor(). -/
def coldStart : Processor := restore initialContext

/-- Processor::GetContext. -/
def GetContext (p : Processor) : StateContext := p.ctx

/-- The EMPTY case block of Processor::updateStateMachine: outside the
refractory window and below the trigger threshold, begin or continue the
occlusion timer; once held for HOLD_MS, fire the mail-drop event, move to
HAS_MAIL and open the refractory window; otherwise drop any in-progress
occlusion timer. -/
def emptyStep (p : Processor) (ctx : StateContext) (data : DistanceData)
    (now_us : Nat) : DistanceData × StateContext :=
  if ¬ now_us < ctx.refractory_until_us ∧ ctx.filtered_cm < p.trigger_thresh_cm then
    let ctx := if ¬ ctx.occluding
      then { ctx with occlusion_start_us := now_us, occluding := true }
      else ctx
    let held_ms := u32 (u64sub now_us ctx.occlusion_start_us / 1000)
    if Config.HOLD_MS ≤ held_ms then
      ({ data with
          mail_detected := true
          delta_cm := p.baseline_cm - ctx.filtered_cm
          duration_ms := held_ms },
       { ctx with
          current_state := .HAS_MAIL
          state_change_us := now_us
          refractory_until_us := u64add now_us (Config.REFRACTORY_MS * 1000)
          occluding := false })
    else (data, ctx)
  else if ctx.occluding then (data, { ctx with occluding := false })
  else (data, ctx)

/-- The shared mail-collection logic of the HAS_MAIL and FULL case blocks:
above the empty threshold, begin or continue the occlusion timer; once held
for HOLD_MS, fire the mail-collected event and move to EMPTIED; otherwise
drop any in-progress occlusion timer. -/
def collectStep (p : Processor) (ctx : StateContext) (data : DistanceData)
    (now_us : Nat) : DistanceData × StateContext :=
  if p.empty_thresh_cm < ctx.filtered_cm then
    let ctx := if ¬ ctx.occluding
      then { ctx with occlusion_start_us := now_us, occluding := true }
      else ctx
    let held_ms := u32 (u64sub now_us ctx.occlusion_start_us / 1000)
    if Config.HOLD_MS ≤ held_ms then
      ({ data with
          mail_collected := true
          delta_cm := ctx.filtered_cm - p.trigger_thresh_cm
          duration_ms := held_ms },
       { ctx with
          current_state := .EMPTIED
          state_change_us := now_us
          occluding := false })
    else (data, ctx)
  else if ctx.occluding then (data, { ctx with occluding := false })
  else (data, ctx)

/-- The HAS_MAIL case block of Processor::updateStateMachine: below the full
threshold, transition immediately to FULL; otherwise run the collection
logic. -/
def hasMailStep (p : Processor) (ctx : StateContext) (data : DistanceData)
    (now_us : Nat) : DistanceData × StateContext :=
  if ctx.filtered_cm < p.full_thresh_cm then
    (data, { ctx with current_state := .FULL, state_change_us := now_us })
  else collectStep p ctx data now_us

/-- The EMPTIED case block of Processor::updateStateMachine: once HOLD_MS has
elapsed since the state change, transition back to EMPTY and open a fresh
refractory window. -/
def emptiedStep (ctx : StateContext) (data : DistanceData) (now_us : Nat) :
    DistanceData × StateContext :=
  if Config.HOLD_MS ≤ u32 (u64sub now_us ctx.state_change_us / 1000) then
    (data, { ctx with
        current_state := .EMPTY
        state_change_us := now_us
        refractory_until_us := u64add now_us (Config.REFRACTORY_MS * 1000) })
  else (data, ctx)

/-- Processor::updateStateMachine: the four-state occupancy machine. A
non-positive filtered value returns immediately; otherwise the switch on the
current state runs and the final state is copied into the result. -/
def updateStateMachine (p : Processor) (ctx : StateContext) (data : DistanceData)
    (now_us : Nat) : DistanceData × StateContext :=
  if ctx.filtered_cm ≤ 0 then (data, ctx)
  else
    let step : DistanceData × StateContext :=
      match ctx.current_state with
      | .EMPTY => emptyStep p ctx data now_us
      | .HAS_MAIL => hasMailStep p ctx data now_us
      | .FULL => collectStep p ctx data now_us
      | .EMPTIED => emptiedStep ctx data now_us
    ({ step.1 with state := step.2.current_state }, step.2)

/-- The first half of Processor::Process: count the sample for the quality
rate, filter it, and periodically republish the success rate (with decay). -/
def qualityStep (ctx : StateContext) (raw_distance_cm : ℚ) (current_time_us : Nat) :
    StateContext :=
  let ctx := { ctx with
    total_count := u32 (ctx.total_count + 1)
    ok_count := if 0 < raw_distance_cm then u32 (ctx.ok_count + 1) else ctx.ok_count }
  let ctx := addToFilter ctx raw_distance_cm
  let elapsed_ms := u32 (u64sub current_time_us ctx.last_update_us / 1000)
  if 1000 ≤ elapsed_ms then
    { updateSuccessRate ctx elapsed_ms with last_update_us := current_time_us }
  else ctx

/-- The DistanceData record as initialized by Processor::Process before the
state machine runs: zeroed event fields, the freshly filtered value and the
currently published success rate. -/
def mkData (raw_distance_cm : ℚ) (ctx : StateContext) : DistanceData :=
  { raw_cm := raw_distance_cm
    filtered_cm := ctx.filtered_cm
    success_rate := ctx.success_rate
    mail_detected := false
    mail_collected := false
    delta_cm := 0
    duration_ms := 0
    state := ctx.current_state }

/-- Processor::Process: count the sample for the quality rate, filter it,
periodically republish the success rate (with decay), then run the state
machine on the new filtered value. -/
def Process (p : Processor) (raw_distance_cm : ℚ) (current_time_us : Nat) :
    DistanceData × Processor :=
  let ctx := qualityStep p.ctx raw_distance_cm current_time_us
  let out := updateStateMachine p ctx (mkData raw_distance_cm ctx) current_time_us
  (out.1, { p with ctx := out.2 })

end Processor

namespace Telemetry

/-- The telemetry timing state: the timestamp of the last periodic emission. -/
structure TelemetryState where
  last_telemetry_us : Nat
deriving DecidableEq, Repr

/-- Which logical records one call to Telemetry::Publish emits. -/
structure PublishOutcome where
  mail_drop_emitted : Bool
  mail_collected_emitted : Bool
  status_emitted : Bool
deriving DecidableEq, Repr

/-- Telemetry::calculateConfidence: weighted combination of detection
magnitude, hold duration and clamped success rate, capped at 1. -/
def calculateConfidence (data : Processor.DistanceData) : ℚ :=
  let delta_component := (1 / 2) * (data.delta_cm / max (1 / 10) Config.TRIGGER_DELTA_CM)
  let duration_component := (3 / 10) * ((data.duration_ms : ℚ) / max 1 (Config.HOLD_MS : ℚ))
  let reliability_component := (1 / 5) * (min (max data.success_rate 0) 1)
  min 1 (delta_component + duration_component + reliability_component)

/-- Telemetry::Publish: emitMailDropEvent exactly when mail_detected,
emitMailCollectedEvent exactly when mail_collected, and then
maybeEmitPeriodic, which is called unconditionally, contains no comparison of
elapsed time against any interval, emits the status record, and stores the
current time as last_telemetry_us. -/
def Publish (st : TelemetryState) (data : Processor.DistanceData) (now_us : Nat) :
    PublishOutcome × TelemetryState :=
  ({ mail_drop_emitted := data.mail_detected
     mail_collected_emitted := data.mail_collected
     status_emitted := true },
   { st with last_telemetry_us := now_us })

end Telemetry

open Processor Telemetry Config

/-- The context fields the state machine never modifies (filter and quality
state). -/
def smFrame (ctx ctx2 : StateContext) : Prop :=
  ctx2.window = ctx.window ∧ ctx2.w_idx = ctx.w_idx ∧ ctx2.w_count = ctx.w_count
  ∧ ctx2.filtered_cm = ctx.filtered_cm ∧ ctx2.ok_count = ctx.ok_count
  ∧ ctx2.total_count = ctx.total_count ∧ ctx2.ms_since_decay = ctx.ms_since_decay
  ∧ ctx2.success_rate = ctx.success_rate ∧ ctx2.last_update_us = ctx.last_update_us

/-- The context fields the quality half of Process never modifies (the state
machine state). -/
def qFrame (ctx ctx2 : StateContext) : Prop :=
  ctx2.current_state = ctx.current_state ∧ ctx2.occluding = ctx.occluding
  ∧ ctx2.occlusion_start_us = ctx.occlusion_start_us
  ∧ ctx2.state_change_us = ctx.state_change_us
  ∧ ctx2.refractory_until_us = ctx.refractory_until_us

/-- The result fields the state machine never modifies. -/
def dataFrame (data data2 : DistanceData) : Prop :=
  data2.raw_cm = data.raw_cm ∧ data2.filtered_cm = data.filtered_cm
  ∧ data2.success_rate = data.success_rate

theorem emptyStep_frame (p : Processor.Processor) (ctx : StateContext)
    (data : DistanceData) (now : Nat) :
    smFrame ctx (emptyStep p ctx data now).2 := by
  unfold emptyStep smFrame
  cases ho : ctx.occluding <;>
    simp only [ho, Bool.false_eq_true, not_false_eq_true, not_true_eq_false,
      if_true, if_false, ite_true, ite_false] <;>
    (repeat' split) <;>
    exact ⟨rfl, rfl, rfl, rfl, rfl, rfl, rfl, rfl, rfl⟩

theorem collectStep_frame (p : Processor.Processor) (ctx : StateContext)
    (data : DistanceData) (now : Nat) :
    smFrame ctx (collectStep p ctx data now).2 := by
  unfold collectStep smFrame
  cases ho : ctx.occluding <;>
    simp only [ho, Bool.false_eq_true, not_false_eq_true, not_true_eq_false,
      if_true, if_false, ite_true, ite_false] <;>
    (repeat' split) <;>
    exact ⟨rfl, rfl, rfl, rfl, rfl, rfl, rfl, rfl, rfl⟩

theorem hasMailStep_frame (p : Processor.Processor) (ctx : StateContext)
    (data : DistanceData) (now : Nat) :
    smFrame ctx (hasMailStep p ctx data now).2 := by
  unfold hasMailStep
  by_cases hfull : ctx.filtered_cm < p.full_thresh_cm
  · rw [if_pos hfull]
    exact ⟨rfl, rfl, rfl, rfl, rfl, rfl, rfl, rfl, rfl⟩
  · rw [if_neg hfull]
    exact collectStep_frame p ctx data now

theorem emptiedStep_frame (ctx : StateContext) (data : DistanceData) (now : Nat) :
    smFrame ctx (emptiedStep ctx data now).2 := by
  unfold emptiedStep
  by_cases ht : Config.HOLD_MS ≤ u32 (u64sub now ctx.state_change_us / 1000)
  · rw [if_pos ht]
    exact ⟨rfl, rfl, rfl, rfl, rfl, rfl, rfl, rfl, rfl⟩
  · rw [if_neg ht]
    exact ⟨rfl, rfl, rfl, rfl, rfl, rfl, rfl, rfl, rfl⟩

theorem usm_frame (p : Processor.Processor) (ctx : StateContext)
    (data : DistanceData) (now : Nat) :
    smFrame ctx (updateStateMachine p ctx data now).2 := by
  unfold updateStateMachine
  by_cases hf : ctx.filtered_cm ≤ 0
  · rw [if_pos hf]
    exact ⟨rfl, rfl, rfl, rfl, rfl, rfl, rfl, rfl, rfl⟩
  · rw [if_neg hf]
    cases hs : ctx.current_state
    · exact emptyStep_frame p ctx data now
    · exact hasMailStep_frame p ctx data now
    · exact collectStep_frame p ctx data now
    · exact emptiedStep_frame ctx data now

theorem emptyStep_data_frame (p : Processor.Processor) (ctx : StateContext)
    (data : DistanceData) (now : Nat) :
    dataFrame data (emptyStep p ctx data now).1 := by
  unfold emptyStep dataFrame
  cases ho : ctx.occluding <;>
    simp only [ho, Bool.false_eq_true, not_false_eq_true, not_true_eq_false,
      if_true, if_false, ite_true, ite_false] <;>
    (repeat' split) <;>
    exact ⟨rfl, rfl, rfl⟩

theorem collectStep_data_frame (p : Processor.Processor) (ctx : StateContext)
    (data : DistanceData) (now : Nat) :
    dataFrame data (collectStep p ctx data now).1 := by
  unfold collectStep dataFrame
  cases ho : ctx.occluding <;>
    simp only [ho, Bool.false_eq_true, not_false_eq_true, not_true_eq_false,
      if_true, if_false, ite_true, ite_false] <;>
    (repeat' split) <;>
    exact ⟨rfl, rfl, rfl⟩

theorem usm_data_frame (p : Processor.Processor) (ctx : StateContext)
    (data : DistanceData) (now : Nat) :
    dataFrame data (updateStateMachine p ctx data now).1 := by
  unfold updateStateMachine
  by_cases hf : ctx.filtered_cm ≤ 0
  · rw [if_pos hf]
    exact ⟨rfl, rfl, rfl⟩
  · rw [if_neg hf]
    cases hs : ctx.current_state
    · exact emptyStep_data_frame p ctx data now
    · unfold hasMailStep
      by_cases hfull : ctx.filtered_cm < p.full_thresh_cm
      · rw [if_pos hfull]
        exact ⟨rfl, rfl, rfl⟩
      · rw [if_neg hfull]
        exact collectStep_data_frame p ctx data now
    · exact collectStep_data_frame p ctx data now
    · unfold emptiedStep
      by_cases ht : Config.HOLD_MS ≤ u32 (u64sub now ctx.state_change_us / 1000)
      · rw [if_pos ht]
        exact ⟨rfl, rfl, rfl⟩
      · rw [if_neg ht]
        exact ⟨rfl, rfl, rfl⟩

theorem qualityStep_frame (ctx : StateContext) (raw : ℚ) (now : Nat) :
    qFrame ctx (qualityStep ctx raw now) := by
  unfold qualityStep addToFilter updateSuccessRate qFrame
  dsimp only
  (repeat' split) <;> exact ⟨rfl, rfl, rfl, rfl, rfl⟩

theorem Process_eq (p : Processor.Processor) (raw : ℚ) (now : Nat) :
    Process p raw now =
      ((updateStateMachine p (qualityStep p.ctx raw now)
          (mkData raw (qualityStep p.ctx raw now)) now).1,
       { p with ctx := (updateStateMachine p (qualityStep p.ctx raw now)
          (mkData raw (qualityStep p.ctx raw now)) now).2 }) := rfl

theorem Process_filtered (p : Processor.Processor) (raw : ℚ) (now : Nat) :
    (Process p raw now).1.filtered_cm = (qualityStep p.ctx raw now).filtered_cm :=
  (usm_data_frame p (qualityStep p.ctx raw now) (mkData raw (qualityStep p.ctx raw now)) now).2.1

theorem usm_empty (p : Processor.Processor) (ctx : StateContext) (data : DistanceData)
    (now : Nat) (hf : ¬ ctx.filtered_cm ≤ 0) (hs : ctx.current_state = .EMPTY) :
    updateStateMachine p ctx data now =
      ({ (emptyStep p ctx data now).1 with state := (emptyStep p ctx data now).2.current_state },
       (emptyStep p ctx data now).2) := by
  unfold updateStateMachine
  rw [if_neg hf, hs]

theorem usm_has_mail (p : Processor.Processor) (ctx : StateContext) (data : DistanceData)
    (now : Nat) (hf : ¬ ctx.filtered_cm ≤ 0) (hs : ctx.current_state = .HAS_MAIL) :
    updateStateMachine p ctx data now =
      ({ (hasMailStep p ctx data now).1 with state := (hasMailStep p ctx data now).2.current_state },
       (hasMailStep p ctx data now).2) := by
  unfold updateStateMachine
  rw [if_neg hf, hs]

theorem usm_full (p : Processor.Processor) (ctx : StateContext) (data : DistanceData)
    (now : Nat) (hf : ¬ ctx.filtered_cm ≤ 0) (hs : ctx.current_state = .FULL) :
    updateStateMachine p ctx data now =
      ({ (collectStep p ctx data now).1 with state := (collectStep p ctx data now).2.current_state },
       (collectStep p ctx data now).2) := by
  unfold updateStateMachine
  rw [if_neg hf, hs]

theorem usm_emptied (p : Processor.Processor) (ctx : StateContext) (data : DistanceData)
    (now : Nat) (hf : ¬ ctx.filtered_cm ≤ 0) (hs : ctx.current_state = .EMPTIED) :
    updateStateMachine p ctx data now =
      ({ (emptiedStep ctx data now).1 with state := (emptiedStep ctx data now).2.current_state },
       (emptiedStep ctx data now).2) := by
  unfold updateStateMachine
  rw [if_neg hf, hs]

theorem emptyStep_fires (p : Processor.Processor) (ctx : StateContext)
    (data : DistanceData) (now : Nat)
    (hrefr : ¬ now < ctx.refractory_until_us)
    (htrig : ctx.filtered_cm < p.trigger_thresh_cm)
    (hocc : ctx.occluding = true)
    (hheld : Config.HOLD_MS ≤ u32 (u64sub now ctx.occlusion_start_us / 1000)) :
    emptyStep p ctx data now =
      ({ data with
          mail_detected := true
          delta_cm := p.baseline_cm - ctx.filtered_cm
          duration_ms := u32 (u64sub now ctx.occlusion_start_us / 1000) },
       { ctx with
          current_state := .HAS_MAIL
          state_change_us := now
          refractory_until_us := u64add now (Config.REFRACTORY_MS * 1000)
          occluding := false }) := by
  unfold emptyStep
  rw [if_pos ⟨hrefr, htrig⟩]
  simp only [hocc, not_true_eq_false, if_false, ite_false]
  rw [if_pos hheld]

theorem collectStep_fires (p : Processor.Processor) (ctx : StateContext)
    (data : DistanceData) (now : Nat)
    (hemp : p.empty_thresh_cm < ctx.filtered_cm)
    (hocc : ctx.occluding = true)
    (hheld : Config.HOLD_MS ≤ u32 (u64sub now ctx.occlusion_start_us / 1000)) :
    collectStep p ctx data now =
      ({ data with
          mail_collected := true
          delta_cm := ctx.filtered_cm - p.trigger_thresh_cm
          duration_ms := u32 (u64sub now ctx.occlusion_start_us / 1000) },
       { ctx with
          current_state := .EMPTIED
          state_change_us := now
          occluding := false }) := by
  unfold collectStep
  rw [if_pos hemp]
  simp only [hocc, not_true_eq_false, if_false, ite_false]
  rw [if_pos hheld]

theorem emptiedStep_fires (ctx : StateContext) (data : DistanceData) (now : Nat)
    (htime : Config.HOLD_MS ≤ u32 (u64sub now ctx.state_change_us / 1000)) :
    emptiedStep ctx data now =
      (data, { ctx with
          current_state := .EMPTY
          state_change_us := now
          refractory_until_us := u64add now (Config.REFRACTORY_MS * 1000) }) := by
  unfold emptiedStep
  rw [if_pos htime]

/-- C1: from EMPTY, outside the refractory window, with a valid filtered value
below the trigger threshold and the occlusion held for at least HOLD_MS,
Process fires exactly one mail-drop event with delta = baseline - filtered and
duration = held time, transitions to HAS_MAIL, sets the refractory window end
to the event time plus REFRACTORY_MS, and resets the occlusion timer. -/
theorem C1_mail_drop_fires (p : Processor.Processor) (raw : ℚ) (now : Nat)
    (hstate : p.ctx.current_state = .EMPTY)
    (hrefr : ¬ now < p.ctx.refractory_until_us)
    (hocc : p.ctx.occluding = true)
    (hheld : Config.HOLD_MS ≤ u32 (u64sub now p.ctx.occlusion_start_us / 1000))
    (hvalid : 0 < (Process p raw now).1.filtered_cm)
    (htrig : (Process p raw now).1.filtered_cm < p.trigger_thresh_cm) :
    (Process p raw now).1.mail_detected = true
    ∧ (Process p raw now).1.mail_collected = false
    ∧ (Process p raw now).1.delta_cm
        = p.baseline_cm - (Process p raw now).1.filtered_cm
    ∧ (Process p raw now).1.duration_ms = u32 (u64sub now p.ctx.occlusion_start_us / 1000)
    ∧ (Process p raw now).1.state = .HAS_MAIL
    ∧ (Process p raw now).2.ctx.current_state = .HAS_MAIL
    ∧ (Process p raw now).2.ctx.refractory_until_us = u64add now (Config.REFRACTORY_MS * 1000)
    ∧ (Process p raw now).2.ctx.occluding = false := by
  have hq := qualityStep_frame p.ctx raw now
  rw [Process_filtered] at hvalid htrig
  have hQs : (qualityStep p.ctx raw now).current_state = .EMPTY := by rw [hq.1]; exact hstate
  have hQocc : (qualityStep p.ctx raw now).occluding = true := by rw [hq.2.1]; exact hocc
  have hQrefr : ¬ now < (qualityStep p.ctx raw now).refractory_until_us := by
    rw [hq.2.2.2.2]; exact hrefr
  have hfire := emptyStep_fires p (qualityStep p.ctx raw now)
    (mkData raw (qualityStep p.ctx raw now)) now hQrefr htrig hQocc
    (by rw [hq.2.2.1]; exact hheld)
  have husm := usm_empty p (qualityStep p.ctx raw now)
    (mkData raw (qualityStep p.ctx raw now)) now (not_le.mpr hvalid) hQs
  rw [Process_eq, husm, hfire]
  exact ⟨rfl, rfl, rfl, by rw [hq.2.2.1], rfl, rfl, rfl, rfl⟩

/-- Witness for C1: a cold-start context with an occlusion begun at time 0,
sample 30 cm at t = 250 ms, fires the mail-drop event. -/
theorem C1_mail_drop_fires_witness :
    (Process (restore { initialContext with occluding := true }) 30 250000).1.mail_detected = true
    ∧ (Process (restore { initialContext with occluding := true }) 30 250000).1.duration_ms = 250
    ∧ (Process (restore { initialContext with occluding := true }) 30 250000).2.ctx.current_state
        = .HAS_MAIL
    ∧ (Process (restore { initialContext with occluding := true }) 30 250000).2.ctx.refractory_until_us
        = 8250000 := by
  have h := C1_mail_drop_fires (restore { initialContext with occluding := true }) 30 250000
    rfl (by decide) rfl (by decide)
    (by rw [Process_filtered]
        norm_num [qualityStep, addToFilter, calculateMedian, updateSuccessRate, u32, u64sub,
          restore, initialContext, FILTER_WINDOW, List.insertionSort, List.orderedInsert])
    (by rw [Process_filtered]
        norm_num [qualityStep, addToFilter, calculateMedian, updateSuccessRate, u32, u64sub,
          restore, initialContext, FILTER_WINDOW, BASELINE_CM, TRIGGER_DELTA_CM,
          List.insertionSort, List.orderedInsert])
  refine ⟨h.1, ?_, h.2.2.2.2.2.1, ?_⟩
  · rw [h.2.2.2.1]; decide
  · rw [h.2.2.2.2.2.2.1]; decide

/-- C2: from HAS_MAIL (not below the full threshold) or FULL, with a valid
filtered value strictly above the empty threshold and the release held for at
least HOLD_MS, Process fires exactly one mail-collected event with
delta = filtered - trigger and duration = held time, and transitions to
EMPTIED. -/
theorem C2_mail_collected_fires (p : Processor.Processor) (raw : ℚ) (now : Nat)
    (hstate : p.ctx.current_state = .HAS_MAIL ∨ p.ctx.current_state = .FULL)
    (hocc : p.ctx.occluding = true)
    (hheld : Config.HOLD_MS ≤ u32 (u64sub now p.ctx.occlusion_start_us / 1000))
    (hvalid : 0 < (Process p raw now).1.filtered_cm)
    (hemp : p.empty_thresh_cm < (Process p raw now).1.filtered_cm)
    (hfull : p.ctx.current_state = .HAS_MAIL →
      ¬ (Process p raw now).1.filtered_cm < p.full_thresh_cm) :
    (Process p raw now).1.mail_collected = true
    ∧ (Process p raw now).1.mail_detected = false
    ∧ (Process p raw now).1.delta_cm
        = (Process p raw now).1.filtered_cm - p.trigger_thresh_cm
    ∧ (Process p raw now).1.duration_ms = u32 (u64sub now p.ctx.occlusion_start_us / 1000)
    ∧ (Process p raw now).1.state = .EMPTIED
    ∧ (Process p raw now).2.ctx.current_state = .EMPTIED := by
  have hq := qualityStep_frame p.ctx raw now
  rw [Process_filtered] at hvalid hemp hfull
  have hQocc : (qualityStep p.ctx raw now).occluding = true := by rw [hq.2.1]; exact hocc
  have hfire := collectStep_fires p (qualityStep p.ctx raw now)
    (mkData raw (qualityStep p.ctx raw now)) now hemp hQocc (by rw [hq.2.2.1]; exact hheld)
  rcases hstate with hs | hs
  · have hQs : (qualityStep p.ctx raw now).current_state = .HAS_MAIL := by rw [hq.1]; exact hs
    have husm := usm_has_mail p (qualityStep p.ctx raw now)
      (mkData raw (qualityStep p.ctx raw now)) now (not_le.mpr hvalid) hQs
    have hhm : hasMailStep p (qualityStep p.ctx raw now)
        (mkData raw (qualityStep p.ctx raw now)) now
        = collectStep p (qualityStep p.ctx raw now)
            (mkData raw (qualityStep p.ctx raw now)) now := by
      unfold hasMailStep
      rw [if_neg (hfull hs)]
    rw [Process_eq, husm, hhm, hfire]
    exact ⟨rfl, rfl, rfl, by rw [hq.2.2.1], rfl, rfl⟩
  · have hQs : (qualityStep p.ctx raw now).current_state = .FULL := by rw [hq.1]; exact hs
    have husm := usm_full p (qualityStep p.ctx raw now)
      (mkData raw (qualityStep p.ctx raw now)) now (not_le.mpr hvalid) hQs
    rw [Process_eq, husm, hfire]
    exact ⟨rfl, rfl, rfl, by rw [hq.2.2.1], rfl, rfl⟩

/-- Witness for C2: HAS_MAIL context with a release begun at time 0, sample 39
cm at t = 250 ms, fires the mail-collected event. -/
theorem C2_mail_collected_fires_witness :
    (Process (restore { initialContext with
        current_state := .HAS_MAIL, occluding := true }) 39 250000).1.mail_collected = true
    ∧ (Process (restore { initialContext with
        current_state := .HAS_MAIL, occluding := true }) 39 250000).1.duration_ms = 250
    ∧ (Process (restore { initialContext with
        current_state := .HAS_MAIL, occluding := true }) 39 250000).2.ctx.current_state
        = .EMPTIED := by
  have h := C2_mail_collected_fires
    (restore { initialContext with current_state := .HAS_MAIL, occluding := true }) 39 250000
    (Or.inl rfl) rfl (by decide)
    (by rw [Process_filtered]
        norm_num [qualityStep, addToFilter, calculateMedian, updateSuccessRate, u32, u64sub,
          restore, initialContext, FILTER_WINDOW, List.insertionSort, List.orderedInsert])
    (by rw [Process_filtered]
        norm_num [qualityStep, addToFilter, calculateMedian, updateSuccessRate, u32, u64sub,
          restore, initialContext, FILTER_WINDOW, BASELINE_CM, TRIGGER_DELTA_CM,
          List.insertionSort, List.orderedInsert])
    (fun _ => by
      rw [Process_filtered]
      norm_num [qualityStep, addToFilter, calculateMedian, updateSuccessRate, u32, u64sub,
        restore, initialContext, FILTER_WINDOW, BASELINE_CM, TRIGGER_DELTA_CM,
        List.insertionSort, List.orderedInsert])
  refine ⟨h.1, ?_, h.2.2.2.2.2⟩
  rw [h.2.2.2.1]; decide

/-- C3: from EMPTIED, once HOLD_MS has elapsed since entering the state, any
call with a valid filtered value transitions to EMPTY with no event and opens
a fresh refractory window of REFRACTORY_MS from the transition time. -/
theorem C3_emptied_time_gated (p : Processor.Processor) (raw : ℚ) (now : Nat)
    (hstate : p.ctx.current_state = .EMPTIED)
    (htime : Config.HOLD_MS ≤ u32 (u64sub now p.ctx.state_change_us / 1000))
    (hvalid : 0 < (Process p raw now).1.filtered_cm) :
    (Process p raw now).1.mail_detected = false
    ∧ (Process p raw now).1.mail_collected = false
    ∧ (Process p raw now).1.state = .EMPTY
    ∧ (Process p raw now).2.ctx.current_state = .EMPTY
    ∧ (Process p raw now).2.ctx.state_change_us = now
    ∧ (Process p raw now).2.ctx.refractory_until_us = u64add now (Config.REFRACTORY_MS * 1000) := by
  have hq := qualityStep_frame p.ctx raw now
  rw [Process_filtered] at hvalid
  have hQs : (qualityStep p.ctx raw now).current_state = .EMPTIED := by rw [hq.1]; exact hstate
  have hfire := emptiedStep_fires (qualityStep p.ctx raw now)
    (mkData raw (qualityStep p.ctx raw now)) now (by rw [hq.2.2.2.1]; exact htime)
  have husm := usm_emptied p (qualityStep p.ctx raw now)
    (mkData raw (qualityStep p.ctx raw now)) now (not_le.mpr hvalid) hQs
  rw [Process_eq, husm, hfire]
  exact ⟨rfl, rfl, rfl, rfl, rfl, rfl⟩

/-- Witness for C3: EMPTIED entered at time 0, any valid sample at t = 250 ms
moves the machine back to EMPTY with a fresh refractory window and no event. -/
theorem C3_emptied_time_gated_witness :
    (Process (restore { initialContext with current_state := .EMPTIED }) 39 250000).1.mail_detected
      = false
    ∧ (Process (restore { initialContext with current_state := .EMPTIED }) 39 250000).2.ctx.current_state
      = .EMPTY
    ∧ (Process (restore { initialContext with current_state := .EMPTIED }) 39 250000).2.ctx.refractory_until_us
      = 8250000 := by
  have h := C3_emptied_time_gated
    (restore { initialContext with current_state := .EMPTIED }) 39 250000
    rfl (by decide)
    (by rw [Process_filtered]
        norm_num [qualityStep, addToFilter, calculateMedian, updateSuccessRate, u32, u64sub,
          restore, initialContext, FILTER_WINDOW, List.insertionSort, List.orderedInsert])
  refine ⟨h.1, h.2.2.2.1, ?_⟩
  rw [h.2.2.2.2.2]; decide

theorem usm_invalid (p : Processor.Processor) (ctx : StateContext) (data : DistanceData)
    (now : Nat) (hf : ctx.filtered_cm ≤ 0) :
    updateStateMachine p ctx data now = (data, ctx) := by
  unfold updateStateMachine
  rw [if_pos hf]

theorem emptyStep_collected (p : Processor.Processor) (ctx : StateContext)
    (data : DistanceData) (now : Nat) :
    (emptyStep p ctx data now).1.mail_collected = data.mail_collected := by
  unfold emptyStep
  cases ho : ctx.occluding <;>
    simp only [ho, Bool.false_eq_true, not_false_eq_true, not_true_eq_false,
      if_true, if_false, ite_true, ite_false] <;>
    (repeat' split) <;> rfl

theorem collectStep_detected (p : Processor.Processor) (ctx : StateContext)
    (data : DistanceData) (now : Nat) :
    (collectStep p ctx data now).1.mail_detected = data.mail_detected := by
  unfold collectStep
  cases ho : ctx.occluding <;>
    simp only [ho, Bool.false_eq_true, not_false_eq_true, not_true_eq_false,
      if_true, if_false, ite_true, ite_false] <;>
    (repeat' split) <;> rfl

theorem usm_collected_of_empty (p : Processor.Processor) (ctx : StateContext)
    (data : DistanceData) (now : Nat) (hf : ¬ ctx.filtered_cm ≤ 0)
    (hs : ctx.current_state = .EMPTY) :
    (updateStateMachine p ctx data now).1.mail_collected = data.mail_collected := by
  rw [usm_empty p ctx data now hf hs]
  show (emptyStep p ctx data now).1.mail_collected = data.mail_collected
  exact emptyStep_collected p ctx data now

theorem usm_detected_of_has_mail (p : Processor.Processor) (ctx : StateContext)
    (data : DistanceData) (now : Nat) (hf : ¬ ctx.filtered_cm ≤ 0)
    (hs : ctx.current_state = .HAS_MAIL) :
    (updateStateMachine p ctx data now).1.mail_detected = data.mail_detected := by
  rw [usm_has_mail p ctx data now hf hs]
  show (hasMailStep p ctx data now).1.mail_detected = data.mail_detected
  unfold hasMailStep
  by_cases hfull : ctx.filtered_cm < p.full_thresh_cm
  · rw [if_pos hfull]
  · rw [if_neg hfull]
    exact collectStep_detected p ctx data now

theorem usm_detected_of_full (p : Processor.Processor) (ctx : StateContext)
    (data : DistanceData) (now : Nat) (hf : ¬ ctx.filtered_cm ≤ 0)
    (hs : ctx.current_state = .FULL) :
    (updateStateMachine p ctx data now).1.mail_detected = data.mail_detected := by
  rw [usm_full p ctx data now hf hs]
  show (collectStep p ctx data now).1.mail_detected = data.mail_detected
  exact collectStep_detected p ctx data now

theorem usm_detected_of_emptied (p : Processor.Processor) (ctx : StateContext)
    (data : DistanceData) (now : Nat) (hf : ¬ ctx.filtered_cm ≤ 0)
    (hs : ctx.current_state = .EMPTIED) :
    (updateStateMachine p ctx data now).1.mail_detected = data.mail_detected := by
  rw [usm_emptied p ctx data now hf hs]
  show (emptiedStep ctx data now).1.mail_detected = data.mail_detected
  unfold emptiedStep
  split <;> rfl

/-- C10: a single Process call never reports both a mail-drop and a
mail-collected event: the two flags are never simultaneously true, whatever
the context and input. -/
theorem C10_events_mutually_exclusive (p : Processor.Processor) (raw : ℚ) (now : Nat) :
    ((Process p raw now).1.mail_detected && (Process p raw now).1.mail_collected) = false := by
  rw [Process_eq]
  by_cases hf : (qualityStep p.ctx raw now).filtered_cm ≤ 0
  · rw [usm_invalid p _ _ now hf]
    rfl
  · cases hs : (qualityStep p.ctx raw now).current_state
    · rw [usm_collected_of_empty p _ _ now hf hs]
      exact Bool.and_false _
    · rw [usm_detected_of_has_mail p _ _ now hf hs]
      exact Bool.false_and _
    · rw [usm_detected_of_full p _ _ now hf hs]
      exact Bool.false_and _
    · rw [usm_detected_of_emptied p _ _ now hf hs]
      exact Bool.false_and _

/-- C4: capturing the context, restoring it into a fresh processor and
processing the identical sample at the identical timestamp yields a result and
a post-context identical to processing on the original processor: Process
depends on nothing beyond the persisted context and the configuration-derived
thresholds. -/
theorem C4_capture_restore_roundtrip (p : Processor.Processor) (raw : ℚ) (now : Nat)
    (hb : p.baseline_cm = Config.BASELINE_CM)
    (ht : p.trigger_thresh_cm = Config.BASELINE_CM - Config.TRIGGER_DELTA_CM)
    (hfl : p.full_thresh_cm = Config.BASELINE_CM - 2 * Config.TRIGGER_DELTA_CM)
    (he : p.empty_thresh_cm = Config.BASELINE_CM - Config.TRIGGER_DELTA_CM * (1 / 2)) :
    Process (restore (GetContext p)) raw now = Process p raw now := by
  obtain ⟨ctx, b, t, f, e⟩ := p
  dsimp only at hb ht hfl he
  subst hb ht hfl he
  rfl

/-- Witness for C4: the round trip at the cold-start processor on a concrete
sample. -/
theorem C4_capture_restore_roundtrip_witness :
    Process (restore (GetContext coldStart)) 30 1000 = Process coldStart 30 1000 :=
  C4_capture_restore_roundtrip coldStart 30 1000 rfl rfl rfl rfl

/-- C9: the arrival confidence equals the documented weighted formula capped
at 1, and for non-negative delta and success rate (duration is unsigned) the
score lies within the interval from 0 to 1. -/
theorem C9_confidence_bounds (data : DistanceData)
    (hd : 0 ≤ data.delta_cm) (hs : 0 ≤ data.success_rate) :
    calculateConfidence data
      = min 1 ((1 / 2) * (data.delta_cm / max (1 / 10) Config.TRIGGER_DELTA_CM)
          + (3 / 10) * ((data.duration_ms : ℚ) / max 1 (Config.HOLD_MS : ℚ))
          + (1 / 5) * (min (max data.success_rate 0) 1))
    ∧ 0 ≤ calculateConfidence data
    ∧ calculateConfidence data ≤ 1 := by
  refine ⟨rfl, ?_, min_le_left _ _⟩
  unfold calculateConfidence
  have h1 : (0:ℚ) ≤ (1 / 2) * (data.delta_cm / max (1 / 10) Config.TRIGGER_DELTA_CM) := by
    have hpos : (0:ℚ) < max (1 / 10) Config.TRIGGER_DELTA_CM :=
      lt_of_lt_of_le (by norm_num) (le_max_left _ _)
    exact mul_nonneg (by norm_num) (div_nonneg hd hpos.le)
  have h2 : (0:ℚ) ≤ (3 / 10) * ((data.duration_ms : ℚ) / max 1 (Config.HOLD_MS : ℚ)) := by
    have hpos : (0:ℚ) < max 1 (Config.HOLD_MS : ℚ) :=
      lt_of_lt_of_le (by norm_num) (le_max_left _ _)
    exact mul_nonneg (by norm_num) (div_nonneg (Nat.cast_nonneg _) hpos.le)
  have h3 : (0:ℚ) ≤ (1 / 5) * (min (max data.success_rate 0) 1) :=
    mul_nonneg (by norm_num) (le_min (le_max_right _ _) zero_le_one)
  exact le_min zero_le_one (by linarith)

/-- Witness for C9 at a concrete arrival event record. -/
theorem C9_confidence_bounds_witness :
    0 ≤ calculateConfidence
      { raw_cm := 30, filtered_cm := 30, success_rate := 1, mail_detected := true,
        mail_collected := false, delta_cm := 10, duration_ms := 250, state := .HAS_MAIL }
    ∧ calculateConfidence
      { raw_cm := 30, filtered_cm := 30, success_rate := 1, mail_detected := true,
        mail_collected := false, delta_cm := 10, duration_ms := 250, state := .HAS_MAIL } ≤ 1 :=
  have h := C9_confidence_bounds
    { raw_cm := 30, filtered_cm := 30, success_rate := 1, mail_detected := true,
      mail_collected := false, delta_cm := 10, duration_ms := 250, state := .HAS_MAIL }
    (by norm_num) (by norm_num)
  ⟨h.2.1, h.2.2⟩

/-- C8: the code calls maybeEmitPeriodic unconditionally and that function
contains no comparison of elapsed time against any interval, so a status
record is emitted on every Publish call, even immediately after a previous
status emission; the event records do follow their flags. This contradicts
the documented behavior of emitting status only when the periodic interval
has elapsed. -/
theorem C8_status_unconditional :
    ∀ (st : TelemetryState) (data : DistanceData) (now_us : Nat),
      (Publish st data now_us).1.status_emitted = true
      ∧ (Publish st data now_us).1.mail_drop_emitted = data.mail_detected
      ∧ (Publish st data now_us).1.mail_collected_emitted = data.mail_collected
      ∧ (Publish st data now_us).2.last_telemetry_us = now_us :=
  fun _ _ _ => ⟨rfl, rfl, rfl, rfl⟩

theorem calculateMedian_congr (c1 c2 : StateContext)
    (hw : c1.window = c2.window) (hc : c1.w_count = c2.w_count) :
    calculateMedian c1 = calculateMedian c2 := by
  unfold calculateMedian
  rw [hw, hc]

theorem qualityStep_filtered_eq (ctx : StateContext) (raw : ℚ) (now : Nat) :
    (qualityStep ctx raw now).filtered_cm
      = calculateMedian { ctx with
          total_count := u32 (ctx.total_count + 1)
          ok_count := if 0 < raw then u32 (ctx.ok_count + 1) else ctx.ok_count
          window := ctx.window.set ctx.w_idx raw
          w_idx := (ctx.w_idx + 1) % Config.FILTER_WINDOW
          w_count := if ctx.w_count < Config.FILTER_WINDOW then ctx.w_count + 1
            else ctx.w_count } := by
  unfold qualityStep addToFilter updateSuccessRate
  dsimp only
  (repeat' split) <;> rfl

theorem calculateMedian_sentinel (ctx : StateContext)
    (h : ∀ v ∈ ctx.window, v ≤ 0) : calculateMedian ctx = -1 := by
  have hnil : ((ctx.window.take ctx.w_count).filter (fun v => 0 < v)) = [] := by
    rw [List.filter_eq_nil]
    intro a ha
    simpa using not_lt.mpr (h a (List.take_subset _ _ ha))
  unfold calculateMedian
  simp [hnil]

/-- C7: when the filter window contains no valid entry, the filtered value is
the sentinel -1 and the state machine is a no-op on every one of its fields;
in general a non-positive filtered value leaves the context untouched and the
result without events. -/
theorem C7_invalid_noop (p : Processor.Processor) (raw : ℚ) (now : Nat)
    (hnv : ∀ v ∈ p.ctx.window.set p.ctx.w_idx raw, v ≤ 0) :
    ((Process p raw now).1.filtered_cm = -1
     ∧ (Process p raw now).1.mail_detected = false
     ∧ (Process p raw now).1.mail_collected = false
     ∧ (Process p raw now).2.ctx.current_state = p.ctx.current_state
     ∧ (Process p raw now).2.ctx.occluding = p.ctx.occluding
     ∧ (Process p raw now).2.ctx.occlusion_start_us = p.ctx.occlusion_start_us
     ∧ (Process p raw now).2.ctx.state_change_us = p.ctx.state_change_us
     ∧ (Process p raw now).2.ctx.refractory_until_us = p.ctx.refractory_until_us)
    ∧ ∀ (q : Processor.Processor) (ctx : StateContext) (d : DistanceData) (m : Nat),
        ctx.filtered_cm ≤ 0 → updateStateMachine q ctx d m = (d, ctx) := by
  have hmed : (qualityStep p.ctx raw now).filtered_cm = -1 := by
    rw [qualityStep_filtered_eq]
    exact calculateMedian_sentinel _ hnv
  have hle : (qualityStep p.ctx raw now).filtered_cm ≤ 0 := by rw [hmed]; norm_num
  have hq := qualityStep_frame p.ctx raw now
  constructor
  · rw [Process_eq, usm_invalid p _ _ now hle]
    exact ⟨hmed, rfl, rfl, hq.1, hq.2.1, hq.2.2.1, hq.2.2.2.1, hq.2.2.2.2⟩
  · exact fun q ctx d m hf => usm_invalid q ctx d m hf

/-- Witness for C7: a cold-start window (all zeroes) receiving an invalid
sample keeps the sentinel output and the EMPTY state. -/
theorem C7_invalid_noop_witness :
    (Process coldStart (-5) 0).1.filtered_cm = -1
    ∧ (Process coldStart (-5) 0).1.mail_detected = false
    ∧ (Process coldStart (-5) 0).2.ctx.current_state = .EMPTY := by
  have h := C7_invalid_noop coldStart (-5) 0 (by
    intro v hv
    fin_cases hv <;> norm_num)
  exact ⟨h.1.1, h.1.2.1, h.1.2.2.2.1⟩

/-- The median rule as the spec words it: sort ascending, take the middle
element for odd counts, the mean of the two central elements for even counts. -/
def medianSpec (l : List ℚ) : ℚ :=
  let s := l.insertionSort (· ≤ ·)
  if s.length % 2 = 1 then s.getD (s.length / 2) 0
  else (s.getD (s.length / 2 - 1) 0 + s.getD (s.length / 2) 0) / 2

/-- The filtered value as the spec words it: the median of the valid
(strictly positive) values among the given slots, the sentinel -1 when no
valid value is present. -/
def medianOfValid (l : List ℚ) : ℚ :=
  let valid := l.filter (fun v => 0 < v)
  if valid = [] then -1 else medianSpec valid

/-- Feeding a sequence of samples through the filter (repeated AddSample). -/
def runFilter (ctx : StateContext) (samples : List ℚ) : StateContext :=
  samples.foldl addToFilter ctx

/-- The structural invariant of the filter window: fixed size, cursor in
range, count saturated at the window size. -/
def FilterWf (ctx : StateContext) : Prop :=
  ctx.window.length = Config.FILTER_WINDOW ∧ ctx.w_idx < Config.FILTER_WINDOW
  ∧ ctx.w_count ≤ Config.FILTER_WINDOW

theorem medianSpec_perm (l1 l2 : List ℚ) (h : l1.Perm l2) :
    medianSpec l1 = medianSpec l2 := by
  unfold medianSpec
  rw [List.eq_of_perm_of_sorted
    ((List.perm_insertionSort _ l1).trans (h.trans (List.perm_insertionSort _ l2).symm))
    (List.sorted_insertionSort _ l1) (List.sorted_insertionSort _ l2)]

theorem addToFilter_filtered (ctx : StateContext) (v : ℚ) :
    (addToFilter ctx v).filtered_cm = calculateMedian (addToFilter ctx v) := by
  unfold addToFilter
  dsimp only
  exact calculateMedian_congr _ _ rfl rfl

theorem calculateMedian_eq_medianOfValid (ctx : StateContext) :
    calculateMedian ctx = medianOfValid (ctx.window.take ctx.w_count) := by
  unfold calculateMedian medianOfValid
  dsimp only
  by_cases h : (ctx.window.take ctx.w_count).filter (fun v => 0 < v) = []
  · simp [h]
  · rw [if_neg h, if_neg (fun hc => h (by
      have h0 := List.length_insertionSort (fun a b : ℚ => a ≤ b)
        ((ctx.window.take ctx.w_count).filter (fun v => 0 < v))
      rw [hc] at h0
      exact List.length_eq_zero.mp h0.symm))]
    rfl

theorem calculateMedian_all_pos (ctx : StateContext)
    (hcnt : ctx.w_count = Config.FILTER_WINDOW)
    (hlen : ctx.window.length = Config.FILTER_WINDOW)
    (hpos : ∀ v ∈ ctx.window, 0 < v) :
    calculateMedian ctx = medianSpec ctx.window := by
  unfold calculateMedian
  have htake : ctx.window.take ctx.w_count = ctx.window := by
    rw [hcnt]
    exact List.take_of_length_le (le_of_eq hlen)
  have hfil : ctx.window.filter (fun v => 0 < v) = ctx.window :=
    List.filter_eq_self.mpr (fun a ha => by simpa using hpos a ha)
  rw [htake, hfil]
  have hne : ctx.window.length ≠ 0 := by rw [hlen]; norm_num [Config.FILTER_WINDOW]
  rw [if_neg (fun hc => hne (by
    have h0 := List.length_insertionSort (fun a b : ℚ => a ≤ b) ctx.window
    rw [hc] at h0
    exact h0.symm))]
  rfl

theorem list_len_five (l : List ℚ) (h : l.length = 5) :
    ∃ a b c d e, l = [a, b, c, d, e] := by
  rcases l with _ | ⟨a, l⟩; · simp at h
  rcases l with _ | ⟨b, l⟩; · simp at h
  rcases l with _ | ⟨c, l⟩; · simp at h
  rcases l with _ | ⟨d, l⟩; · simp at h
  rcases l with _ | ⟨e, l⟩; · simp at h
  rcases l with _ | ⟨f, l⟩
  · exact ⟨a, b, c, d, e, rfl⟩
  · simp at h

theorem addToFilter_wf (ctx : StateContext) (v : ℚ) (hwf : FilterWf ctx) :
    FilterWf (addToFilter ctx v) := by
  obtain ⟨hlen, hidx, hcnt⟩ := hwf
  unfold addToFilter FilterWf
  dsimp only
  refine ⟨?_, ?_, ?_⟩
  · rw [List.length_set]; exact hlen
  · exact Nat.mod_lt _ (by norm_num [Config.FILTER_WINDOW])
  · split <;> omega

theorem runFilter_wf (samples : List ℚ) : ∀ ctx : StateContext, FilterWf ctx →
    FilterWf (runFilter ctx samples) := by
  induction samples with
  | nil => exact fun ctx h => h
  | cons s t ih => exact fun ctx h => ih (addToFilter ctx s) (addToFilter_wf ctx s h)

theorem addToFilter_w_count (ctx : StateContext) (v : ℚ) :
    (addToFilter ctx v).w_count
      = if ctx.w_count < Config.FILTER_WINDOW then ctx.w_count + 1 else ctx.w_count := rfl

theorem runFilter_w_count (samples : List ℚ) : ∀ ctx : StateContext,
    ctx.w_count ≤ Config.FILTER_WINDOW →
    (runFilter ctx samples).w_count
      = min (ctx.w_count + samples.length) Config.FILTER_WINDOW := by
  induction samples with
  | nil =>
    intro ctx h
    show ctx.w_count = _
    simp only [List.length_nil, Nat.add_zero]
    omega
  | cons s t ih =>
    intro ctx h
    show (runFilter (addToFilter ctx s) t).w_count = _
    rw [ih (addToFilter ctx s) (by rw [addToFilter_w_count]; split <;> omega)]
    rw [addToFilter_w_count, List.length_cons]
    rcases Nat.lt_or_ge ctx.w_count Config.FILTER_WINDOW with hlt | hge
    · rw [if_pos hlt]; omega
    · rw [if_neg (not_lt.mpr hge)]; omega

theorem runFilter_five_perm (ctx : StateContext) (s1 s2 s3 s4 s5 : ℚ) (hwf : FilterWf ctx) :
    (runFilter ctx [s1, s2, s3, s4, s5]).window.Perm [s1, s2, s3, s4, s5] := by
  obtain ⟨win, wi, wc, fc, ok, tot, ms, sr, lu, cs, oc, os, sc, ru⟩ := ctx
  obtain ⟨hlen, hidx, hcnt⟩ := hwf
  dsimp only at hlen hidx
  obtain ⟨a, b, c, d, e, hw⟩ := list_len_five win hlen
  subst hw
  rw [show Config.FILTER_WINDOW = 5 from rfl] at hidx
  interval_cases wi
  · exact List.Perm.of_eq (by with_unfolding_all rfl)
  · exact (List.Perm.of_eq (by with_unfolding_all rfl)).trans
      (@List.perm_append_comm _ [s5] [s1, s2, s3, s4])
  · exact (List.Perm.of_eq (by with_unfolding_all rfl)).trans
      (@List.perm_append_comm _ [s4, s5] [s1, s2, s3])
  · exact (List.Perm.of_eq (by with_unfolding_all rfl)).trans
      (@List.perm_append_comm _ [s3, s4, s5] [s1, s2])
  · exact (List.Perm.of_eq (by with_unfolding_all rfl)).trans
      (@List.perm_append_comm _ [s2, s3, s4, s5] [s1])

theorem runFilter_filtered (samples : List ℚ) (hne : samples ≠ []) :
    ∀ ctx : StateContext, (runFilter ctx samples).filtered_cm
      = calculateMedian (runFilter ctx samples) := by
  induction samples with
  | nil => exact absurd rfl hne
  | cons s t ih =>
    intro ctx
    cases t with
    | nil => exact addToFilter_filtered ctx s
    | cons s2 t2 => exact ih (by simp) (addToFilter ctx s)

theorem runFilter_append (ctx : StateContext) (A B : List ℚ) :
    runFilter ctx (A ++ B) = runFilter (runFilter ctx A) B := by
  unfold runFilter
  exact List.foldl_append addToFilter ctx A B

/-- C5: AddSample writes the value at the cursor, advances the cursor modulo
the window size, saturates the count at the window size, and the filtered
value equals the spec median rule applied to the valid (strictly positive)
values among the populated slots; moreover, feeding at least a full window of
valid positive samples makes the output the true median of the last
FILTER_WINDOW samples. -/
theorem C5_filter_median (ctx : StateContext) (v : ℚ) (samples : List ℚ)
    (hwf : FilterWf ctx) (hlen : Config.FILTER_WINDOW ≤ samples.length)
    (hpos : ∀ s ∈ samples, 0 < s) :
    ((addToFilter ctx v).window = ctx.window.set ctx.w_idx v
     ∧ (addToFilter ctx v).w_idx = (ctx.w_idx + 1) % Config.FILTER_WINDOW
     ∧ (addToFilter ctx v).w_count = min (ctx.w_count + 1) Config.FILTER_WINDOW
     ∧ (addToFilter ctx v).filtered_cm
         = medianOfValid ((addToFilter ctx v).window.take (addToFilter ctx v).w_count))
    ∧ (runFilter ctx samples).filtered_cm
        = medianSpec (samples.drop (samples.length - Config.FILTER_WINDOW)) := by
  constructor
  · refine ⟨rfl, rfl, ?_, ?_⟩
    · rw [addToFilter_w_count]
      have hc := hwf.2.2
      split <;> omega
    · rw [addToFilter_filtered, calculateMedian_eq_medianOfValid]
  · have hdlen : (samples.drop (samples.length - Config.FILTER_WINDOW)).length = 5 := by
      rw [List.length_drop]
      rw [show Config.FILTER_WINDOW = 5 from rfl] at hlen ⊢
      omega
    obtain ⟨t1, t2, t3, t4, t5, hfive⟩ := list_len_five _ hdlen
    have hsplit := (List.take_append_drop (samples.length - Config.FILTER_WINDOW) samples).symm
    conv_lhs => rw [hsplit]
    rw [runFilter_append, hfive]
    have hwf2 : FilterWf (runFilter ctx (samples.take (samples.length - Config.FILTER_WINDOW))) :=
      runFilter_wf _ ctx hwf
    have hperm := runFilter_five_perm _ t1 t2 t3 t4 t5 hwf2
    have hwf3 := runFilter_wf [t1, t2, t3, t4, t5] _ hwf2
    have hcount := runFilter_w_count [t1, t2, t3, t4, t5] _ hwf2.2.2
    have hposd : ∀ s ∈ [t1, t2, t3, t4, t5], 0 < s := by
      rw [← hfive]
      exact fun s hs => hpos s (List.drop_subset _ _ hs)
    have hcnt5 : (runFilter (runFilter ctx (samples.take (samples.length - Config.FILTER_WINDOW)))
        [t1, t2, t3, t4, t5]).w_count = Config.FILTER_WINDOW := by
      rw [hcount, show Config.FILTER_WINDOW = 5 from rfl]
      simp only [List.length_cons, List.length_nil]
      omega
    have hposw : ∀ x ∈ (runFilter (runFilter ctx
        (samples.take (samples.length - Config.FILTER_WINDOW)))
        [t1, t2, t3, t4, t5]).window, 0 < x :=
      fun x hx => hposd x (hperm.mem_iff.mp hx)
    rw [runFilter_filtered _ (by simp), calculateMedian_all_pos _ hcnt5 hwf3.1 hposw]
    exact medianSpec_perm _ _ hperm

/-- Witness for C5: the cold-start window fed five positive samples; the first
AddSample grows the count and the full run produces the median of the five. -/
theorem C5_filter_median_witness :
    (addToFilter initialContext 31).w_count
      = min (initialContext.w_count + 1) Config.FILTER_WINDOW
    ∧ (runFilter initialContext [31, 35, 33, 32, 34]).filtered_cm
        = medianSpec (List.drop (([31, 35, 33, 32, 34] : List ℚ).length - Config.FILTER_WINDOW)
            [31, 35, 33, 32, 34]) :=
  have h := C5_filter_median initialContext 31 [31, 35, 33, 32, 34]
    ⟨rfl, by decide, by decide⟩ (by decide)
    (by intro s hs; fin_cases hs <;> norm_num)
  ⟨h.1.2.2.1, h.2⟩

/-- Feeding a sequence of (raw sample, timestamp) pairs through Process. -/
def runProcess (p : Processor.Processor) (inputs : List (ℚ × Nat)) : Processor.Processor :=
  inputs.foldl (fun q i => (Process q i.1 i.2).2) p

/-- The quality-clock invariant maintained by Process during the first minute
of virtual time: the decay accumulator never exceeds the last update time in
milliseconds, and the last update time stays below the decay horizon. -/
def QInv (ctx : StateContext) : Prop :=
  ctx.ms_since_decay ≤ ctx.last_update_us / 1000 ∧ ctx.last_update_us < 60000000

theorem u64sub_of_le (a b : Nat) (h : b ≤ a) (ha : a < 2 ^ 64) : u64sub a b = a - b := by
  unfold u64sub
  rw [show a + 2 ^ 64 - b = (a - b) + 2 ^ 64 by omega, Nat.add_mod_right]
  exact Nat.mod_eq_of_lt (by omega)

theorem div_add_div_le_div (a b c : Nat) (hc : 0 < c) : a / c + b / c ≤ (a + b) / c := by
  rw [Nat.le_div_iff_mul_le hc, Nat.add_mul]
  exact Nat.add_le_add (Nat.div_mul_le_self a c) (Nat.div_mul_le_self b c)

theorem Process_ctx_eq (p : Processor.Processor) (raw : ℚ) (now : Nat) :
    (Process p raw now).2.ctx
      = (updateStateMachine p (qualityStep p.ctx raw now)
          (mkData raw (qualityStep p.ctx raw now)) now).2 := rfl

theorem Process_quality_frame (p : Processor.Processor) (raw : ℚ) (now : Nat) :
    (Process p raw now).2.ctx.ok_count = (qualityStep p.ctx raw now).ok_count
    ∧ (Process p raw now).2.ctx.total_count = (qualityStep p.ctx raw now).total_count
    ∧ (Process p raw now).2.ctx.ms_since_decay = (qualityStep p.ctx raw now).ms_since_decay
    ∧ (Process p raw now).2.ctx.success_rate = (qualityStep p.ctx raw now).success_rate
    ∧ (Process p raw now).2.ctx.last_update_us = (qualityStep p.ctx raw now).last_update_us := by
  rw [Process_ctx_eq]
  have h := usm_frame p (qualityStep p.ctx raw now) (mkData raw (qualityStep p.ctx raw now)) now
  exact ⟨h.2.2.2.2.1, h.2.2.2.2.2.1, h.2.2.2.2.2.2.1, h.2.2.2.2.2.2.2.1, h.2.2.2.2.2.2.2.2⟩

theorem qualityStep_split (ctx : StateContext) (raw : ℚ) (now : Nat) :
    qualityStep ctx raw now =
      (let ctx2 := addToFilter { ctx with
          total_count := u32 (ctx.total_count + 1)
          ok_count := if 0 < raw then u32 (ctx.ok_count + 1) else ctx.ok_count } raw
       if 1000 ≤ u32 (u64sub now ctx.last_update_us / 1000)
       then { updateSuccessRate ctx2 (u32 (u64sub now ctx.last_update_us / 1000))
              with last_update_us := now }
       else ctx2) := rfl

theorem addToFilter_ms (ctx : StateContext) (v : ℚ) :
    (addToFilter ctx v).ms_since_decay = ctx.ms_since_decay := rfl

theorem addToFilter_tc (ctx : StateContext) (v : ℚ) :
    (addToFilter ctx v).total_count = ctx.total_count := rfl

theorem addToFilter_okc (ctx : StateContext) (v : ℚ) :
    (addToFilter ctx v).ok_count = ctx.ok_count := rfl

theorem addToFilter_lu (ctx : StateContext) (v : ℚ) :
    (addToFilter ctx v).last_update_us = ctx.last_update_us := rfl

theorem addToFilter_sr (ctx : StateContext) (v : ℚ) :
    (addToFilter ctx v).success_rate = ctx.success_rate := rfl

theorem Process_quality_step (p : Processor.Processor) (raw : ℚ) (now : Nat)
    (hq : QInv p.ctx) (hnow : now < 60000000) (hmono : p.ctx.last_update_us ≤ now)
    (hT : p.ctx.total_count + 1 < 2 ^ 32) (hK : p.ctx.ok_count + 1 < 2 ^ 32) :
    (Process p raw now).2.ctx.total_count = p.ctx.total_count + 1
    ∧ (Process p raw now).2.ctx.ok_count = p.ctx.ok_count + (if 0 < raw then 1 else 0)
    ∧ QInv (Process p raw now).2.ctx
    ∧ ((Process p raw now).2.ctx.last_update_us = p.ctx.last_update_us
        ∨ (Process p raw now).2.ctx.last_update_us = now)
    ∧ (1000000 ≤ now - p.ctx.last_update_us →
        (Process p raw now).2.ctx.success_rate
          = ((p.ctx.ok_count + (if 0 < raw then 1 else 0) : Nat) : ℚ)
              / ((p.ctx.total_count + 1 : Nat) : ℚ)) := by
  obtain ⟨hms, hlu⟩ := hq
  have hsub : u64sub now p.ctx.last_update_us = now - p.ctx.last_update_us :=
    u64sub_of_le _ _ hmono (by omega)
  have he32 : u32 ((now - p.ctx.last_update_us) / 1000) = (now - p.ctx.last_update_us) / 1000 := by
    unfold u32
    exact Nat.mod_eq_of_lt (by omega)
  have hT32 : u32 (p.ctx.total_count + 1) = p.ctx.total_count + 1 := Nat.mod_eq_of_lt hT
  have hK32 : u32 (p.ctx.ok_count + 1) = p.ctx.ok_count + 1 := Nat.mod_eq_of_lt hK
  have hdd := div_add_div_le_div p.ctx.last_update_us (now - p.ctx.last_update_us) 1000 (by norm_num)
  have hfr := Process_quality_frame p raw now
  by_cases hcase : 1000 ≤ (now - p.ctx.last_update_us) / 1000
  · -- the success rate is republished at this call
    have hmsE : u32 (p.ctx.ms_since_decay + (now - p.ctx.last_update_us) / 1000)
        = p.ctx.ms_since_decay + (now - p.ctx.last_update_us) / 1000 := by
      unfold u32
      exact Nat.mod_eq_of_lt (by omega)
    have hnodec : ¬ 60000 ≤ u32 (p.ctx.ms_since_decay + (now - p.ctx.last_update_us) / 1000) := by
      rw [hmsE]
      omega
    have htot : (qualityStep p.ctx raw now).total_count = p.ctx.total_count + 1 := by
      rw [qualityStep_split]
      dsimp only
      rw [hsub, he32, if_pos hcase]
      unfold updateSuccessRate
      dsimp only
      simp only [addToFilter_ms, addToFilter_tc, addToFilter_okc, addToFilter_lu, addToFilter_sr]
      rw [if_neg hnodec]
      exact hT32
    have hokc : (qualityStep p.ctx raw now).ok_count
        = p.ctx.ok_count + (if 0 < raw then 1 else 0) := by
      rw [qualityStep_split]
      dsimp only
      rw [hsub, he32, if_pos hcase]
      unfold updateSuccessRate
      dsimp only
      simp only [addToFilter_ms, addToFilter_tc, addToFilter_okc, addToFilter_lu, addToFilter_sr]
      rw [if_neg hnodec]
      show (if 0 < raw then u32 (p.ctx.ok_count + 1) else p.ctx.ok_count) = _
      split <;> omega
    have hlu2 : (qualityStep p.ctx raw now).last_update_us = now := by
      rw [qualityStep_split]
      dsimp only
      rw [hsub, he32, if_pos hcase]
    have hms2 : (qualityStep p.ctx raw now).ms_since_decay
        = p.ctx.ms_since_decay + (now - p.ctx.last_update_us) / 1000 := by
      rw [qualityStep_split]
      dsimp only
      rw [hsub, he32, if_pos hcase]
      unfold updateSuccessRate
      dsimp only
      simp only [addToFilter_ms, addToFilter_tc, addToFilter_okc, addToFilter_lu, addToFilter_sr]
      rw [if_neg hnodec]
      exact hmsE
    have hrate : (qualityStep p.ctx raw now).success_rate
        = ((p.ctx.ok_count + (if 0 < raw then 1 else 0) : Nat) : ℚ)
            / ((p.ctx.total_count + 1 : Nat) : ℚ) := by
      rw [qualityStep_split]
      dsimp only
      rw [hsub, he32, if_pos hcase]
      unfold updateSuccessRate
      dsimp only
      simp only [addToFilter_ms, addToFilter_tc, addToFilter_okc, addToFilter_lu, addToFilter_sr]
      rw [if_neg hnodec, hT32, if_pos (Nat.succ_pos _)]
      have hnum : (if 0 < raw then u32 (p.ctx.ok_count + 1) else p.ctx.ok_count)
          = p.ctx.ok_count + (if 0 < raw then 1 else 0) := by split <;> omega
      rw [hnum]
    refine ⟨?_, ?_, ⟨?_, ?_⟩, ?_, ?_⟩
    · rw [hfr.2.1, htot]
    · rw [hfr.1, hokc]
    · rw [hfr.2.2.1, hfr.2.2.2.2, hms2, hlu2]
      omega
    · rw [hfr.2.2.2.2, hlu2]
      omega
    · rw [hfr.2.2.2.2, hlu2]
      exact Or.inr rfl
    · intro hge
      rw [hfr.2.2.2.1, hrate]
  · -- no republish this call
    have htot : (qualityStep p.ctx raw now).total_count = p.ctx.total_count + 1 := by
      rw [qualityStep_split]
      dsimp only
      rw [hsub, he32, if_neg hcase]
      exact hT32
    have hokc : (qualityStep p.ctx raw now).ok_count
        = p.ctx.ok_count + (if 0 < raw then 1 else 0) := by
      rw [qualityStep_split]
      dsimp only
      rw [hsub, he32, if_neg hcase]
      show (if 0 < raw then u32 (p.ctx.ok_count + 1) else p.ctx.ok_count) = _
      split <;> omega
    have hlu2 : (qualityStep p.ctx raw now).last_update_us = p.ctx.last_update_us := by
      rw [qualityStep_split]
      dsimp only
      rw [hsub, he32, if_neg hcase]
      exact rfl
    have hms2 : (qualityStep p.ctx raw now).ms_since_decay = p.ctx.ms_since_decay := by
      rw [qualityStep_split]
      dsimp only
      rw [hsub, he32, if_neg hcase]
      exact rfl
    refine ⟨?_, ?_, ⟨?_, ?_⟩, ?_, ?_⟩
    · rw [hfr.2.1, htot]
    · rw [hfr.1, hokc]
    · rw [hfr.2.2.1, hfr.2.2.2.2, hms2, hlu2]
      exact hms
    · rw [hfr.2.2.2.2, hlu2]
      exact hlu
    · rw [hfr.2.2.2.2, hlu2]
      exact Or.inl rfl
    · intro hge
      exact absurd (by omega : 1000 ≤ (now - p.ctx.last_update_us) / 1000) hcase

theorem runProcess_append (p : Processor.Processor) (A B : List (ℚ × Nat)) :
    runProcess p (A ++ B) = runProcess (runProcess p A) B := by
  unfold runProcess
  exact List.foldl_append _ _ A B

theorem runProcess_counts (inputs : List (ℚ × Nat)) : ∀ p : Processor.Processor,
    QInv p.ctx →
    List.Pairwise (· ≤ ·) (p.ctx.last_update_us :: inputs.map Prod.snd) →
    (∀ i ∈ inputs, i.2 < 60000000) →
    p.ctx.total_count + inputs.length < 2 ^ 32 →
    p.ctx.ok_count + inputs.length < 2 ^ 32 →
    (runProcess p inputs).ctx.total_count = p.ctx.total_count + inputs.length
    ∧ (runProcess p inputs).ctx.ok_count
        = p.ctx.ok_count + (inputs.filter (fun i => 0 < i.1)).length
    ∧ QInv (runProcess p inputs).ctx
    ∧ ((runProcess p inputs).ctx.last_update_us = p.ctx.last_update_us
        ∨ (runProcess p inputs).ctx.last_update_us ∈ inputs.map Prod.snd) := by
  induction inputs with
  | nil =>
    intro p hq _ _ _ _
    exact ⟨by simp [runProcess], by simp [runProcess], hq, Or.inl rfl⟩
  | cons i t ih =>
    intro p hq hpair htimes hT hK
    rw [List.map_cons, List.pairwise_cons] at hpair
    obtain ⟨hhead, hpair_t⟩ := hpair
    have hmono : p.ctx.last_update_us ≤ i.2 := hhead i.2 (List.mem_cons_self _ _)
    have hstep := Process_quality_step p i.1 i.2 hq (htimes i (List.mem_cons_self _ _)) hmono
      (by simp only [List.length_cons] at hT; omega)
      (by simp only [List.length_cons] at hK; omega)
    have hpair2 : List.Pairwise (· ≤ ·)
        ((Process p i.1 i.2).2.ctx.last_update_us :: t.map Prod.snd) := by
      rcases hstep.2.2.2.1 with hl | hl
      · refine List.pairwise_cons.mpr ⟨fun b hb => ?_, (List.pairwise_cons.mp hpair_t).2⟩
        rw [hl]
        exact hhead b (List.mem_cons_of_mem _ hb)
      · refine List.pairwise_cons.mpr ⟨fun b hb => ?_, (List.pairwise_cons.mp hpair_t).2⟩
        rw [hl]
        exact (List.pairwise_cons.mp hpair_t).1 b hb
    have hrest := ih (Process p i.1 i.2).2 hstep.2.2.1 hpair2
      (fun j hj => htimes j (List.mem_cons_of_mem _ hj))
      (by rw [hstep.1]; simp only [List.length_cons] at hT; omega)
      (by rw [hstep.2.1]
          simp only [List.length_cons] at hK
          have : (if 0 < i.1 then 1 else 0) ≤ 1 := by split <;> omega
          omega)
    have hrun : runProcess p (i :: t) = runProcess (Process p i.1 i.2).2 t := rfl
    rw [hrun]
    have hfl : ((i :: t).filter (fun x => 0 < x.1)).length
        = (if 0 < i.1 then 1 else 0) + (t.filter (fun x => 0 < x.1)).length := by
      rw [List.filter_cons]
      by_cases h : 0 < i.1
      · simp [h]
        omega
      · simp [h]
    refine ⟨?_, ?_, hrest.2.2.1, ?_⟩
    · rw [hrest.1, hstep.1]
      simp only [List.length_cons]
      omega
    · rw [hrest.2.1, hstep.2.1, hfl]
      omega
    · rcases hrest.2.2.2 with hl | hl
      · rcases hstep.2.2.2.1 with hl2 | hl2
        · exact Or.inl (hl.trans hl2)
        · exact Or.inr (by rw [List.map_cons, hl, hl2]; exact List.mem_cons_self _ _)
      · exact Or.inr (by rw [List.map_cons]; exact List.mem_cons_of_mem _ hl)

/-- C6: every Process call increments the total counter and increments the ok
counter iff the raw sample was strictly positive (stated with no decay firing
in the call and counters below the 32-bit wrap); from a cold start, a
time-monotone run of T samples with K valid ones within the first minute of
virtual time whose final call republishes the rate publishes exactly K / T;
the rate is 0 while the total counter is 0; and once the decay accumulator
reaches 60000 ms both counters are halved by integer division and the
accumulator resets. -/
theorem C6_quality_tracking (inputs : List (ℚ × Nat)) (hne : inputs ≠ [])
    (hpair : List.Pairwise (· ≤ ·) (inputs.map Prod.snd))
    (htimes : ∀ i ∈ inputs, i.2 < 60000000)
    (hT : inputs.length < 2 ^ 32)
    (hfire : (runProcess coldStart inputs.dropLast).ctx.last_update_us + 1000000
        ≤ (inputs.getLast hne).2) :
    (runProcess coldStart inputs).ctx.success_rate
      = (((inputs.filter (fun i => 0 < i.1)).length : Nat) : ℚ) / ((inputs.length : Nat) : ℚ)
    ∧ (∀ (q : Processor.Processor) (raw : ℚ) (now : Nat),
        q.ctx.total_count + 1 < 2 ^ 32 → q.ctx.ok_count + 1 < 2 ^ 32 →
        ¬ 60000 ≤ u32 (q.ctx.ms_since_decay + u32 (u64sub now q.ctx.last_update_us / 1000)) →
        (Process q raw now).2.ctx.total_count = q.ctx.total_count + 1
        ∧ (Process q raw now).2.ctx.ok_count
            = q.ctx.ok_count + (if 0 < raw then 1 else 0))
    ∧ (∀ (ctx : StateContext) (e : Nat), ctx.total_count = 0 →
        (updateSuccessRate ctx e).success_rate = 0)
    ∧ (∀ (ctx : StateContext) (e : Nat), 60000 ≤ u32 (ctx.ms_since_decay + e) →
        (updateSuccessRate ctx e).ok_count = ctx.ok_count / 2
        ∧ (updateSuccessRate ctx e).total_count = ctx.total_count / 2
        ∧ (updateSuccessRate ctx e).ms_since_decay = 0) := by
  refine ⟨?_, ?_, ?_, ?_⟩
  · -- the K/T rate after the monotone run
    have hsplit : inputs.dropLast ++ [inputs.getLast hne] = inputs :=
      List.dropLast_append_getLast hne
    have hQ0 : QInv coldStart.ctx := ⟨Nat.le_refl 0, by show (0:Nat) < 60000000; norm_num⟩
    have hpairD : List.Pairwise (· ≤ ·)
        (coldStart.ctx.last_update_us :: inputs.dropLast.map Prod.snd) :=
      List.pairwise_cons.mpr ⟨fun b _ => Nat.zero_le b,
        hpair.sublist ((List.dropLast_sublist inputs).map Prod.snd)⟩
    have hlenD : inputs.dropLast.length = inputs.length - 1 := List.length_dropLast inputs
    have hrunD := runProcess_counts inputs.dropLast coldStart hQ0 hpairD
      (fun i hi => htimes i (List.dropLast_subset inputs hi))
      (by show 0 + _ < _; omega) (by show 0 + _ < _; omega)
    have hKlen := List.length_filter_le (fun i => decide (0 < i.1)) inputs.dropLast
    have hmem := List.getLast_mem hne
    have hstep := Process_quality_step (runProcess coldStart inputs.dropLast)
      (inputs.getLast hne).1 (inputs.getLast hne).2 hrunD.2.2.1
      (htimes _ hmem) (by omega)
      (by rw [hrunD.1]; show 0 + _ + 1 < _; omega)
      (by rw [hrunD.2.1]; show 0 + _ + 1 < _; omega)
    have hrw : runProcess coldStart inputs
        = (Process (runProcess coldStart inputs.dropLast)
            (inputs.getLast hne).1 (inputs.getLast hne).2).2 := by
      conv_lhs => rw [← hsplit]
      rw [runProcess_append]
      rfl
    have hfil : (inputs.filter (fun i => 0 < i.1)).length
        = (inputs.dropLast.filter (fun i => 0 < i.1)).length
          + (if 0 < (inputs.getLast hne).1 then 1 else 0) := by
      conv_lhs => rw [← hsplit]
      rw [List.filter_append]
      by_cases h : 0 < (inputs.getLast hne).1
      · simp [h]
      · simp [h]
    have hlen2 : inputs.length = inputs.dropLast.length + 1 := by
      conv_lhs => rw [← hsplit]
      simp
    rw [hrw, hstep.2.2.2.2 (by omega)]
    have h1 : (runProcess coldStart inputs.dropLast).ctx.ok_count
        + (if 0 < (inputs.getLast hne).1 then 1 else 0)
        = (inputs.filter (fun i => 0 < i.1)).length := by
      rw [hrunD.2.1, hfil]
      have hok0 : coldStart.ctx.ok_count = 0 := rfl
      omega
    have h2 : (runProcess coldStart inputs.dropLast).ctx.total_count + 1 = inputs.length := by
      rw [hrunD.1]
      have htot0 : coldStart.ctx.total_count = 0 := rfl
      omega
    rw [h1, h2]
  · -- per-call increments in the absence of decay
    intro q raw now h1 h2 h3
    have hfr := Process_quality_frame q raw now
    constructor
    · rw [hfr.2.1, qualityStep_split]
      dsimp only
      split
      · unfold updateSuccessRate
        dsimp only
        simp only [addToFilter_ms, addToFilter_tc, addToFilter_okc, addToFilter_lu,
          addToFilter_sr]
        rw [if_neg h3]
        exact Nat.mod_eq_of_lt h1
      · exact Nat.mod_eq_of_lt h1
    · rw [hfr.1, qualityStep_split]
      dsimp only
      split
      · unfold updateSuccessRate
        dsimp only
        simp only [addToFilter_ms, addToFilter_tc, addToFilter_okc, addToFilter_lu,
          addToFilter_sr]
        rw [if_neg h3]
        show (if 0 < raw then u32 (q.ctx.ok_count + 1) else q.ctx.ok_count) = _
        have hu : u32 (q.ctx.ok_count + 1) = q.ctx.ok_count + 1 := Nat.mod_eq_of_lt h2
        split <;> omega
      · show (if 0 < raw then u32 (q.ctx.ok_count + 1) else q.ctx.ok_count) = _
        have hu : u32 (q.ctx.ok_count + 1) = q.ctx.ok_count + 1 := Nat.mod_eq_of_lt h2
        split <;> omega
  · -- rate is 0 while total is 0
    intro ctx e h
    unfold updateSuccessRate
    dsimp only
    rw [h, if_neg (lt_irrefl 0)]
    split <;> rfl
  · -- decay halves both counters and resets the accumulator
    intro ctx e h
    unfold updateSuccessRate
    dsimp only
    rw [if_pos h]
    exact ⟨rfl, rfl, rfl⟩

/-- Witness for C6: a valid sample at t = 1.1 s then an invalid one at
t = 2.2 s from a cold start; the published success rate is the valid count
over the total count. -/
theorem C6_quality_tracking_witness :
    (runProcess coldStart [((30 : ℚ), 1100000), ((-1 : ℚ), 2200000)]).ctx.success_rate
      = ((([((30 : ℚ), 1100000), ((-1 : ℚ), 2200000)].filter
            (fun i => 0 < i.1)).length : Nat) : ℚ)
          / (([((30 : ℚ), 1100000), ((-1 : ℚ), 2200000)].length : Nat) : ℚ) :=
  (C6_quality_tracking [((30 : ℚ), 1100000), ((-1 : ℚ), 2200000)]
    (by simp)
    (by norm_num [List.pairwise_cons])
    (by norm_num [List.mem_cons])
    (by norm_num)
    (by norm_num [runProcess, Process, qualityStep, mkData, addToFilter, calculateMedian,
      updateSuccessRate, updateStateMachine, emptyStep, hasMailStep, collectStep, emptiedStep,
      u32, u64sub, u64add, coldStart, restore, initialContext, Config.BASELINE_CM,
      Config.TRIGGER_DELTA_CM, Config.HOLD_MS, Config.REFRACTORY_MS, Config.FILTER_WINDOW,
      List.insertionSort, List.orderedInsert, List.replicate, List.set, List.take,
      List.filter, List.getD, List.foldl])).1
